import Mathlib

/-!
Verification of the cosmwasm-examples repository (erc20 token ledger and
staking-weighted voting contract) against its natural-language specification.

The embedding mirrors the Rust sources:
  * `src/erc20/src/contract.rs`  — the token ledger (`Erc20` namespace);
  * `src/voting/src/contract.rs` and `src/voting/src/state.rs` — the
    governance engine (`Voting` namespace).

Modelling conventions:
  * The host key-value store is an association list (`KVStore`); a real store
    never holds two values for one key, and all stores built here start empty
    and are only mutated through `KVStore.set`, which preserves that shape.
  * `u128` / `u64` values are `Nat`s; the contracts are compiled with
    overflow checks, so an arithmetic overflow aborts execution — modelled as
    an `Err.fatal` outcome, like a Rust panic or unwrap failure.
  * Fallible handlers return a `RawResult`: the storage exactly as the raw
    code left it (including writes performed before a failure) together with
    an optional error.  `commitTx` is the host transaction wrapper.
-/

inductive Err where
  | generic (msg : String)
  | fatal (msg : String)
deriving DecidableEq

deriving instance DecidableEq for Except

/-- Raw outcome of one handler invocation: the storage as the handler left it
(writes performed before a failure included) plus an optional error. -/
structure RawResult (σ : Type) where
  state : σ
  error : Option Err
deriving DecidableEq

/-- Modelled from the spec: the host's surrounding transaction wrapper (§5 of
the spec) — if a handler fails, none of its writes become visible; on success
the handler's final storage is committed.  This wrapper is part of the
CosmWasm host, not of the repository sources. -/
def commitTx {σ : Type} (pre : σ) (r : RawResult σ) : σ :=
  if r.error.isSome then pre else r.state

/-! ### The key-value store -/

abbrev KVStore (κ α : Type) : Type := List (κ × α)

namespace KVStore

variable {κ α : Type} [DecidableEq κ]

def get : KVStore κ α → κ → Option α
  | [], _ => none
  | (k', v) :: rest, k => if k' = k then some v else get rest k

def set : KVStore κ α → κ → α → KVStore κ α
  | [], k, v => [(k, v)]
  | (k', v') :: rest, k, v =>
      if k' = k then (k, v) :: rest else (k', v') :: set rest k v

/-- Read of an integer-valued key: an absent key reads as zero
(`read_u128` semantics of both contracts). -/
def getD (s : KVStore κ Nat) (k : κ) : Nat := (get s k).getD 0

/-- Sum of all stored integer values. -/
def sum (s : KVStore κ Nat) : Nat := (s.map Prod.snd).sum

end KVStore

/-! ### The erc20 token ledger (`src/erc20/src/contract.rs`) -/

namespace Erc20

/-- Addresses; the source's `CanonicalAddr` (canonicalization is assumed
bijective per the spec, so the canonical form is used directly). -/
abbrev Addr : Type := String

def U128_LIMIT : Nat := 2 ^ 128

/-- `to_be_bytes` helper: `n` big-endian base-256 digits of `v`. -/
def beBytesAux : Nat → Nat → List Nat
  | 0, _ => []
  | n + 1, v => beBytesAux n (v / 256) ++ [v % 256]

/-- `u128::to_be_bytes`: the 16-byte big-endian encoding. -/
def u128_to_be_bytes (v : Nat) : List Nat := beBytesAux 16 v

/-- `u128::from_be_bytes` on a byte list. -/
def from_be_bytes (l : List Nat) : Nat := l.foldl (fun acc b => acc * 256 + b) 0

/-- `bytes_to_u128` (erc20 contract.rs lines 369-374; the identical function
appears in voting contract.rs lines 52-57).  The source slices `data[0..16]`,
which panics when fewer than 16 bytes are stored; on 16 or more bytes the
slice has exactly 16 bytes, so the subsequent `try_into` always succeeds and
the `CorruptData` error branch is unreachable. -/
def bytes_to_u128 (data : List Nat) : Except Err Nat :=
  if data.length < 16 then .error (.fatal "byte slice index out of range")
  else .ok (from_be_bytes (data.take 16))

/-- `read_u128`: absent key reads as zero, otherwise decode the bytes. -/
def read_u128 (store : KVStore String (List Nat)) (key : String) : Except Err Nat :=
  match KVStore.get store key with
  | some data => bytes_to_u128 data
  | none => .ok 0

/-- Ledger storage.  Balance and allowance values are stored as 16-byte
big-endian words in the source; the byte layer is round-tripping (see the
`bytes_to_u128` theorems), so balances/allowances/supply are carried as the
decoded numbers here. -/
structure State where
  balances : KVStore Addr Nat
  allowances : KVStore (Addr × Addr) Nat
  totalSupply : Nat
  minter : Addr
deriving DecidableEq

/-- `perform_transfer` (lines 342-365): checks the sender balance, writes the
decremented sender balance, then reads and writes the incremented recipient
balance.  The recipient read happens after the sender write, so a self
transfer is handled consistently.  The recipient increment is a `u128`
addition: overflow aborts (after the sender write). -/
def perform_transfer (bal : KVStore Addr Nat) (frm dst : Addr) (amount : Nat) :
    RawResult (KVStore Addr Nat) :=
  let fromBalance := KVStore.getD bal frm
  if fromBalance < amount then
    ⟨bal, some (.generic ("Insufficient funds: balance=" ++ toString fromBalance
      ++ ", required=" ++ toString amount))⟩
  else
    let bal1 := KVStore.set bal frm (fromBalance - amount)
    let toBalance := KVStore.getD bal1 dst
    if U128_LIMIT ≤ toBalance + amount then ⟨bal1, some (.fatal "u128 overflow")⟩
    else ⟨KVStore.set bal1 dst (toBalance + amount), none⟩

/-- `try_transfer` (lines 121-151). -/
def try_transfer (st : State) (sender recipient : Addr) (amount : Nat) :
    RawResult State :=
  match perform_transfer st.balances sender recipient amount with
  | ⟨bal, none⟩ => ⟨{ st with balances := bal }, none⟩
  | ⟨bal, some e⟩ => ⟨{ st with balances := bal }, some e⟩

/-- `try_transfer_from` (lines 153-200): reads the allowance, rejects if it is
smaller than the amount, otherwise writes the decremented allowance and only
then calls `perform_transfer` — a failure inside `perform_transfer` leaves the
allowance write behind in the raw storage. -/
def try_transfer_from (st : State) (spender owner recipient : Addr)
    (amount : Nat) : RawResult State :=
  let allowance := KVStore.getD st.allowances (owner, spender)
  if allowance < amount then
    ⟨st, some (.generic ("Insufficient allowance: allowance=" ++ toString allowance
      ++ ", required=" ++ toString amount))⟩
  else
    let st1 := { st with
      allowances := KVStore.set st.allowances (owner, spender) (allowance - amount) }
    match perform_transfer st1.balances owner recipient amount with
    | ⟨bal, none⟩ => ⟨{ st1 with balances := bal }, none⟩
    | ⟨bal, some e⟩ => ⟨{ st1 with balances := bal }, some e⟩

/-- `try_approve` (lines 202-230): overwrites the allowance entry. -/
def try_approve (st : State) (sender spender : Addr) (amount : Nat) :
    RawResult State :=
  ⟨{ st with allowances := KVStore.set st.allowances (sender, spender) amount }, none⟩

/-- `try_burn` (lines 237-283): checks and decrements the caller balance, then
decrements the total supply.  The supply subtraction is unchecked `u128`
arithmetic in the source: if the stored supply were smaller than the amount it
would abort (after the balance write). -/
def try_burn (st : State) (sender : Addr) (amount : Nat) : RawResult State :=
  let accountBalance := KVStore.getD st.balances sender
  if accountBalance < amount then
    ⟨st, some (.generic ("insufficient funds to burn: balance="
      ++ toString accountBalance ++ ", required=" ++ toString amount))⟩
  else
    let st1 := { st with
      balances := KVStore.set st.balances sender (accountBalance - amount) }
    if st1.totalSupply < amount then ⟨st1, some (.fatal "u128 subtraction overflow")⟩
    else ⟨{ st1 with totalSupply := st1.totalSupply - amount }, none⟩

/-- `try_mint` (lines 291-340): reads and increments the recipient balance and
writes it back, and only then checks the caller against the recorded minter —
`panic!("not authorized minter")` when they differ (the source comments show a
recoverable error was intended but did not compile).  The total supply is read
and incremented only after the authorization check. -/
def try_mint (st : State) (sender recipient : Addr) (amount : Nat) :
    RawResult State :=
  let accountBalance := KVStore.getD st.balances recipient
  if U128_LIMIT ≤ accountBalance + amount then ⟨st, some (.fatal "u128 overflow")⟩
  else
    let st1 := { st with
      balances := KVStore.set st.balances recipient (accountBalance + amount) }
    if sender ≠ st.minter then ⟨st1, some (.fatal "not authorized minter")⟩
    else if U128_LIMIT ≤ st1.totalSupply + amount then
      ⟨st1, some (.fatal "u128 overflow")⟩
    else ⟨{ st1 with totalSupply := st1.totalSupply + amount }, none⟩

/-- The `HandleMsg` variants (amounts already parsed from their decimal-string
wire form; `parse_u128` admits exactly the values below `2^128`). -/
inductive Msg where
  | approve (spender : Addr) (amount : Nat)
  | transfer (recipient : Addr) (amount : Nat)
  | transferFrom (owner recipient : Addr) (amount : Nat)
  | burn (amount : Nat)
  | mint (recipient : Addr) (amount : Nat)
deriving DecidableEq

/-- `handle` (lines 76-94). -/
def handle (st : State) (sender : Addr) (msg : Msg) : RawResult State :=
  match msg with
  | .approve spender amount => try_approve st sender spender amount
  | .transfer recipient amount => try_transfer st sender recipient amount
  | .transferFrom owner recipient amount =>
      try_transfer_from st sender owner recipient amount
  | .burn amount => try_burn st sender amount
  | .mint recipient amount => try_mint st sender recipient amount

/-- `is_valid_name` (lines 421-427): 3 to 30 UTF-8 bytes. -/
def is_valid_name (name : String) : Bool :=
  3 ≤ name.utf8ByteSize && name.utf8ByteSize ≤ 30

/-- `is_valid_symbol` (lines 429-440): 3 to 6 bytes, each an uppercase ASCII
letter (byte 65 to 90). -/
def is_valid_symbol (symbol : String) : Bool :=
  3 ≤ symbol.utf8ByteSize && symbol.utf8ByteSize ≤ 6
    && symbol.toList.all (fun c => 65 ≤ c.toNat && c.toNat ≤ 90)

/-- One step of the `init` loop (lines 36-41): parse the amount (`parse_u128`
fails at `2^128`), write the balance (overwriting any earlier credit of the
same address), and accumulate the supply (a `u128` addition). -/
def initStep (acc : RawResult (KVStore Addr Nat × Nat)) (row : Addr × Nat) :
    RawResult (KVStore Addr Nat × Nat) :=
  match acc with
  | ⟨s, some e⟩ => ⟨s, some e⟩
  | ⟨(bal, supply), none⟩ =>
    if U128_LIMIT ≤ row.2 then
      ⟨(bal, supply), some (.generic "Error while parsing string to u128")⟩
    else if U128_LIMIT ≤ supply + row.2 then
      ⟨(bal, supply), some (.fatal "u128 overflow")⟩
    else ⟨(KVStore.set bal row.1 row.2, supply + row.2), none⟩

/-- `init` (lines 27-74): credit the initial balances while accumulating the
total supply, then validate name, symbol and decimals, then store the
constants, the supply and the minter (the message sender). -/
def init (sender : Addr) (name symbol : String) (decimals : Nat)
    (initial_balances : List (Addr × Nat)) : RawResult State :=
  match initial_balances.foldl initStep ⟨(([] : KVStore Addr Nat), 0), none⟩ with
  | ⟨(bal, _), some e⟩ => ⟨⟨bal, [], 0, sender⟩, some e⟩
  | ⟨(bal, supply), none⟩ =>
    if ¬ is_valid_name name then
      ⟨⟨bal, [], 0, sender⟩,
        some (.generic "Name is not in the expected format (3-30 UTF-8 bytes)")⟩
    else if ¬ is_valid_symbol symbol then
      ⟨⟨bal, [], 0, sender⟩,
        some (.generic "Ticker symbol is not in expected format [A-Z]\x7b3,6\x7d")⟩
    else if 18 < decimals then
      ⟨⟨bal, [], 0, sender⟩, some (.generic "Decimals must not exceed 18")⟩
    else ⟨⟨bal, [], supply, sender⟩, none⟩

/-- Characterization helper (not itself source code): the amount of the last
occurrence of address `a` in an initial-balances list, 0 when `a` is absent.
Because the `init` loop overwrites earlier credits of the same address, this
is the balance `init` finally stores for `a`. -/
def lastVal : List (Addr × Nat) → Addr → Nat
  | [], _ => 0
  | (b, w) :: rest, a =>
      if a ∈ rest.map Prod.fst then lastVal rest a
      else if b = a then w else 0

/-- Characterization helper (not itself source code): the total amount of all
non-final occurrences in an initial-balances list — the credits the `init`
loop overwrites while still counting them into the total supply. -/
def shadowedSum : List (Addr × Nat) → Nat
  | [] => 0
  | (b, w) :: rest =>
      (if b ∈ rest.map Prod.fst then w else 0) + shadowedSum rest

end Erc20

/-! ### The governance engine (`src/voting/src/contract.rs`, `state.rs`) -/

namespace Voting

abbrev Addr : Type := String

def U128_LIMIT : Nat := 2 ^ 128

def U64_LIMIT : Nat := 2 ^ 64

def MIN_STAKE_AMOUNT : Nat := 10

def VOTING_TOKEN : String := "voting_token"

/-- `PollStatus` (state.rs lines 43-48). -/
inductive PollStatus where
  | InProgress
  | Tally
  | Passed
  | Rejected
deriving DecidableEq

/-- `TokenManager` (state.rs lines 29-34). -/
structure TokenManager where
  token_balance : Nat
  participated_polls : List Nat
deriving DecidableEq

/-- `Voter` (state.rs lines 37-40): a vote label and its weight. -/
structure Voter where
  vote : String
  weight : Nat
deriving DecidableEq

/-- `Poll` (state.rs lines 51-62). -/
structure Poll where
  creator : Addr
  status : PollStatus
  quorum_percentage : Nat
  yes_votes : Nat
  no_votes : Nat
  voters : List Addr
  voter_info : List Voter
  end_height : Option Nat
  start_height : Option Nat
  description : String
deriving DecidableEq

/-- The governance storage: the config singleton (state.rs `State`) plus the
four buckets.  Polls are keyed by the decimal string of the poll id in the
source — a bijection, kept as the id itself here.  The `poll_voter_info` and
`locked_tokens` buckets are keyed by `get_poll_voter_key`, kept as the
concatenated string exactly as in the source. -/
structure GovState where
  token : Addr
  owner : Addr
  poll_count : Nat
  staked_tokens : Nat
  polls : KVStore Nat Poll
  bank : KVStore Addr TokenManager
  poll_voter_info : KVStore String Voter
  locked_tokens : KVStore String Nat
deriving DecidableEq

/-- A coin attached to a message. -/
structure Coin where
  denom : String
  amount : Nat
deriving DecidableEq

/-- The per-message environment: caller, block height, attached funds, and the
oracle value returned by the host balance query used in `end_poll`. -/
structure GovEnv where
  sender : Addr
  height : Nat
  sent_funds : List Coin
  oracle_staked : Nat
deriving DecidableEq

/-- `init` (contract.rs lines 23-38). -/
def gov_init (token sender : Addr) : GovState :=
  ⟨token, sender, 0, 0, [], [], [], []⟩

/-- `get_poll_voter_key` (lines 440-443): decimal poll id concatenated with
the voter identity. -/
def get_poll_voter_key (poll_id : Nat) (voter : Addr) : String :=
  toString poll_id ++ voter

/-- Modelled from the spec: `coin_helpers::assert_sent_sufficient_coin` is in
the repository but not under `src/`; per the spec (§4.3) staking "requires
sent_amount ≥ a minimum stake threshold and that it was sent in the configured
denomination; fails with `InsufficientFunds` otherwise", and the in-repo tests
show amount 10 accepted and amount 0 or a wrong denomination rejected with
"Insufficient funds sent". -/
def assert_sent_sufficient_coin (sent : List Coin) (required : Option Coin) :
    Except Err Unit :=
  match required with
  | none => .ok ()
  | some req =>
    if req.amount = 0 then .ok ()
    else if sent.any (fun c => c.denom = req.denom && req.amount ≤ c.amount) then .ok ()
    else .error (.generic "Insufficient funds sent")

/-- `stake_voting_tokens` (lines 85-124): check the attached funds, read (or
lazily create) the caller's bank entry, add the first attached coin of the
voting denomination to its balance, add the same amount to the aggregate
staked counter (saved first), then save the bank entry. -/
def stake_voting_tokens (st : GovState) (env : GovEnv) : RawResult GovState :=
  match assert_sent_sufficient_coin env.sent_funds
      (some ⟨VOTING_TOKEN, MIN_STAKE_AMOUNT⟩) with
  | .error e => ⟨st, some e⟩
  | .ok _ =>
    let tm := (KVStore.get st.bank env.sender).getD ⟨0, []⟩
    match env.sent_funds.find? (fun c => c.denom = VOTING_TOKEN) with
    | none => ⟨st, some (.fatal "no coin of the voting denomination sent")⟩
    | some c =>
      if U128_LIMIT ≤ tm.token_balance + c.amount then
        ⟨st, some (.fatal "u128 overflow")⟩
      else if U128_LIMIT ≤ st.staked_tokens + c.amount then
        ⟨st, some (.fatal "u128 overflow")⟩
      else
        let st1 := { st with staked_tokens := st.staked_tokens + c.amount }
        let tm1 := { tm with token_balance := tm.token_balance + c.amount }
        let bank1 := KVStore.set st1.bank env.sender tm1
        ⟨{ st1 with bank := bank1 }, none⟩

/-- `locked_amount` (lines 350-367): the largest weight recorded in the
`poll_voter_info` bucket across the voter's participated polls — NOT the
`locked_tokens` bucket, and with no regard to the polls' status.  The bank
load and each info load `.unwrap()`, so an absent entry aborts. -/
def locked_amount (st : GovState) (voter : Addr) : Except Err Nat :=
  match KVStore.get st.bank voter with
  | none => .error (.fatal "bank entry load failed")
  | some tm =>
    tm.participated_polls.foldlM
      (fun largest poll_id =>
        match KVStore.get st.poll_voter_info (get_poll_voter_key poll_id voter) with
        | none => .error (.fatal "poll voter info load failed")
        | some vi => .ok (if largest < vi.weight then vi.weight else largest))
      0

/-- `withdraw_voting_tokens` (lines 127-166): fails when nothing is staked;
otherwise the withdrawal (defaulting to the full balance) is rejected when the
largest locked amount plus the withdrawal exceeds the staked balance; on
success the bank entry is saved first, then the aggregate counter. -/
def withdraw_voting_tokens (st : GovState) (env : GovEnv) (amount : Option Nat) :
    RawResult GovState :=
  match KVStore.get st.bank env.sender with
  | none => ⟨st, some (.generic "Nothing staked")⟩
  | some tm =>
    match locked_amount st env.sender with
    | .error e => ⟨st, some e⟩
    | .ok largest_staked =>
      let withdraw_amount := amount.getD tm.token_balance
      if tm.token_balance < largest_staked + withdraw_amount then
        ⟨st, some (.generic "User is trying to withdraw too many tokens.")⟩
      else
        let tm1 := { tm with token_balance := tm.token_balance - withdraw_amount }
        let bank1 := KVStore.set st.bank env.sender tm1
        let st1 := { st with bank := bank1 }
        if st1.staked_tokens < withdraw_amount then
          ⟨st1, some (.fatal "u128 subtraction overflow")⟩
        else
          ⟨{ st1 with staked_tokens := st1.staked_tokens - withdraw_amount }, none⟩

/-- `invalid_char` (lines 168-172). -/
def invalid_char (c : Char) : Bool :=
  ! (('0' ≤ c && c ≤ '9') || ('a' ≤ c && c ≤ 'z')
      || (c = '.' || c = '-' || c = '_' || c = ' '))

/-- `validate_description` (lines 176-190): 3 to 64 bytes, and every character
must be valid; the first offending character is reported (the source quotes it
between single quote characters, built here from code point 39). -/
def validate_description (description : String) : Except Err Unit :=
  if description.utf8ByteSize < 3 then .error (.generic "Description too short")
  else if 64 < description.utf8ByteSize then
    .error (.generic "Description too long")
  else
    match description.toList.find? invalid_char with
    | none => .ok ()
    | some c => .error (.generic ("Invalid character: "
        ++ String.singleton (Char.ofNat 39) ++ String.singleton c
        ++ String.singleton (Char.ofNat 39)))

/-- `validate_quorum_percentage` (lines 194-200): the `u8` value must satisfy
`1 ≤ qp ≤ 100`; `qp <= 0 || qp > 100` is rejected — note that 0 is rejected. -/
def validate_quorum_percentage (quorum_percentage : Nat) : Except Err Unit :=
  if quorum_percentage = 0 || 100 < quorum_percentage then
    .error (.generic "quorum_percentage must be 1 to 100")
  else .ok ()

/-- `create_poll` (lines 203-251): validate the quorum percentage, then the
description; allocate id `poll_count + 1` (a `u64` increment), store the new
in-progress poll with empty voter lists, and save the incremented counter. -/
def create_poll (st : GovState) (sender : Addr) (quorum_percentage : Nat)
    (description : String) (start_height end_height : Option Nat) :
    RawResult GovState :=
  match validate_quorum_percentage quorum_percentage with
  | .error e => ⟨st, some e⟩
  | .ok _ =>
    match validate_description description with
    | .error e => ⟨st, some e⟩
    | .ok _ =>
      if U64_LIMIT ≤ st.poll_count + 1 then ⟨st, some (.fatal "u64 overflow")⟩
      else
        let poll_id := st.poll_count + 1
        let new_poll : Poll :=
          ⟨sender, .InProgress, quorum_percentage, 0, 0, [], [],
            end_height, start_height, description⟩
        let polls1 := KVStore.set st.polls poll_id new_poll
        ⟨{ st with polls := polls1, poll_count := poll_id }, none⟩

/-- `has_voted` (lines 369-371). -/
def has_voted (voter : Addr) (a_poll : Poll) : Bool :=
  a_poll.voters.contains voter

/-- `cast_vote` (lines 373-437): poll must exist and be in progress, the voter
must not already appear in its voter list, and the voter's staked balance must
cover the weight.  On success the poll id is appended to the voter's
participation list, the voter to the poll's voter list, the (vote, weight)
record to the `poll_voter_info` bucket and to the poll's `voter_info` list;
then the poll and the bank entry are saved.  Note that no entry of the
`locked_tokens` bucket is ever written here. -/
def cast_vote (st : GovState) (sender : Addr) (poll_id : Nat) (vote : String)
    (weight : Nat) : RawResult GovState :=
  match KVStore.get st.polls poll_id with
  | none => ⟨st, some (.generic "Poll does not exist")⟩
  | some a_poll =>
    if a_poll.status ≠ .InProgress then
      ⟨st, some (.generic "Poll is not in progress")⟩
    else if has_voted sender a_poll then
      ⟨st, some (.generic "User has already voted.")⟩
    else
      let tm := (KVStore.get st.bank sender).getD ⟨0, []⟩
      if tm.token_balance < weight then
        ⟨st, some (.generic "User does not have enough staked tokens.")⟩
      else
        let tm1 : TokenManager :=
          ⟨tm.token_balance, tm.participated_polls ++ [poll_id]⟩
        let voter_rec : Voter := ⟨vote, weight⟩
        let a_poll1 := { a_poll with
          voters := a_poll.voters ++ [sender],
          voter_info := a_poll.voter_info ++ [voter_rec] }
        let info1 := KVStore.set st.poll_voter_info
          (get_poll_voter_key poll_id sender) voter_rec
        let st1 := { st with poll_voter_info := info1 }
        let polls1 := KVStore.set st1.polls poll_id a_poll1
        let st2 := { st1 with polls := polls1 }
        let bank1 := KVStore.set st2.bank sender tm1
        ⟨{ st2 with bank := bank1 }, none⟩

/-- Yes-weight of the tally loop (lines 288-295): weights of votes whose label
is exactly "yes". -/
def yesWeight (voter_info : List Voter) : Nat :=
  voter_info.foldl (fun acc v => if v.vote = "yes" then acc + v.weight else acc) 0

/-- No-weight of the tally loop: weights of all other votes. -/
def noWeight (voter_info : List Voter) : Nat :=
  voter_info.foldl (fun acc v => if v.vote = "yes" then acc else acc + v.weight) 0

/-- The height guards of `end_poll` (lines 277-283):
`h.is_some() && h.unwrap() > env.block.height`. -/
def height_not_reached (limit : Option Nat) (height : Nat) : Bool :=
  match limit with
  | some s => decide (height < s)
  | none => false

/-- Result of `end_poll`: the storage, the optional error, and the logged
rejection reason and pass flag. -/
structure EndPollOut where
  state : GovState
  error : Option Err
  rejected_reason : String
  passed : Bool
deriving DecidableEq

/-- `end_poll` (lines 256-347).  After the existence, creator, status and
height checks, the vote weights are tallied.  With a positive tally the
quorum is `(tallied / staked) * 100` in truncating integer division (a `u128`
division by zero aborts when the oracle reports zero staked), cast to `u8`
(reduction mod 256).  The `Passed` status assigned in the threshold branch is
unconditionally overwritten before saving: line 298 binds `poll_status` to
`Rejected` and line 325 executes `a_poll.status = poll_status` on every
successful path, so the stored status is always `Rejected`.  Afterwards every
voter's `locked_tokens` entry for this poll is zeroed (the bucket that no
other function reads). -/
def end_poll (st : GovState) (sender : Addr) (height : Nat)
    (oracle_staked : Nat) (poll_id : Nat) : EndPollOut :=
  match KVStore.get st.polls poll_id with
  | none => ⟨st, some (.generic "Poll does not exist"), "", false⟩
  | some a_poll =>
    if a_poll.creator ≠ sender then
      ⟨st, some (.generic "User is not the creator of the poll."), "", false⟩
    else if a_poll.status ≠ .InProgress then
      ⟨st, some (.generic "Poll is not in progress"), "", false⟩
    else if height_not_reached a_poll.start_height height then
      ⟨st, some (.generic "Voting period has not started."), "", false⟩
    else if height_not_reached a_poll.end_height height then
      ⟨st, some (.generic "Voting period has not expired."), "", false⟩
    else
      let yes := yesWeight a_poll.voter_info
      let no := noWeight a_poll.voter_info
      let tallied_weight := yes + no
      if 0 < tallied_weight && oracle_staked = 0 then
        ⟨st, some (.fatal "u128 division by zero"), "", false⟩
      else
        let outcome : String × Bool × Poll :=
          if 0 < tallied_weight then
            let quorum := (tallied_weight / oracle_staked) * 100 % 256
            if quorum < a_poll.quorum_percentage then
              ("Quorum not reached", false, a_poll)
            else if tallied_weight / 2 < yes then
              ("", true, { a_poll with status := .Passed })
            else ("Threshold not reached", false, a_poll)
          else ("Quorum not reached", false, a_poll)
        let a_poll2 := { outcome.2.2 with status := .Rejected }
        let polls1 := KVStore.set st.polls poll_id a_poll2
        let st1 := { st with polls := polls1 }
        let locked1 := a_poll2.voters.foldl
          (fun lt v => KVStore.set lt (get_poll_voter_key poll_id v) 0)
          st1.locked_tokens
        let st2 := { st1 with locked_tokens := locked1 }
        ⟨st2, none, outcome.1, outcome.2.1⟩

/-- The `HandleMsg` variants (msg.rs / contract.rs lines 59-83). -/
inductive GovMsg where
  | stakeVotingTokens
  | withdrawVotingTokens (amount : Option Nat)
  | castVote (poll_id : Nat) (vote : String) (weight : Nat)
  | endPoll (poll_id : Nat)
  | createPoll (quorum_percentage : Nat) (description : String)
      (start_height end_height : Option Nat)
deriving DecidableEq

/-- `handle` (lines 59-83). -/
def gov_handle (st : GovState) (env : GovEnv) (msg : GovMsg) :
    RawResult GovState :=
  match msg with
  | .stakeVotingTokens => stake_voting_tokens st env
  | .withdrawVotingTokens amount => withdraw_voting_tokens st env amount
  | .castVote poll_id vote weight => cast_vote st env.sender poll_id vote weight
  | .endPoll poll_id =>
    let r := end_poll st env.sender env.height env.oracle_staked poll_id
    ⟨r.state, r.error⟩
  | .createPoll qp desc sh eh => create_poll st env.sender qp desc sh eh

/-- The states reachable from contract instantiation through committed
transactions (the host wrapper discards the writes of failed handlers). -/
inductive Reachable : GovState → Prop where
  | init : ∀ token sender, Reachable (gov_init token sender)
  | step : ∀ st env msg, Reachable st →
      Reachable (commitTx st (gov_handle st env msg))

end Voting

/-! ## Theorems

Everything below proves properties of the definitions above; no further
definitions are introduced except inside theorem statements via `let`. -/

theorem commitTx_of_error {σ : Type} (pre : σ) (r : RawResult σ)
    (h : r.error.isSome) : commitTx pre r = pre := by
  simp [commitTx, h]

theorem commitTx_of_ok {σ : Type} (pre : σ) (r : RawResult σ)
    (h : r.error = none) : commitTx pre r = r.state := by
  simp [commitTx, h]

namespace KVStore

variable {κ α : Type} [DecidableEq κ]

@[simp] theorem get_nil (k : κ) : get ([] : KVStore κ α) k = none := rfl

theorem get_set_self (s : KVStore κ α) (k : κ) (v : α) :
    get (set s k v) k = some v := by
  induction s with
  | nil => simp [set, get]
  | cons hd tl ih =>
    obtain ⟨k', v'⟩ := hd
    by_cases h : k' = k <;> simp [set, get, h, ih]

theorem get_set_ne (s : KVStore κ α) (k k' : κ) (v : α) (h : k' ≠ k) :
    get (set s k v) k' = get s k' := by
  have hne : ¬ k = k' := fun hk => h hk.symm
  induction s with
  | nil => simp [set, get, hne]
  | cons hd tl ih =>
    obtain ⟨a, b⟩ := hd
    by_cases hak : a = k
    · subst hak
      simp [set, get, hne]
    · simp only [set, if_neg hak, get]
      by_cases hak' : a = k' <;> simp [hak', ih]

theorem getD_set_self (s : KVStore κ Nat) (k : κ) (v : Nat) :
    getD (set s k v) k = v := by
  simp [getD, get_set_self]

theorem getD_set_ne (s : KVStore κ Nat) (k k' : κ) (v : Nat) (h : k' ≠ k) :
    getD (set s k v) k' = getD s k' := by
  simp [getD, get_set_ne _ _ _ _ h]

/-- Replacing / inserting a value changes the total by exactly the difference
with the previous value of that key. -/
theorem sum_set (s : KVStore κ Nat) (k : κ) (v : Nat) :
    sum (set s k v) + getD s k = sum s + v := by
  induction s with
  | nil => simp [set, sum, getD, get]
  | cons hd tl ih =>
    obtain ⟨a, b⟩ := hd
    by_cases h : a = k
    · subst h
      simp [set, sum, getD, get]
      omega
    · simp only [set, if_neg h, sum, List.map_cons, List.sum_cons, getD, get, if_neg h]
      simp only [sum, getD] at ih
      omega

theorem getD_le_sum (s : KVStore κ Nat) (k : κ) : getD s k ≤ sum s := by
  induction s with
  | nil => simp [getD, get, sum]
  | cons hd tl ih =>
    obtain ⟨a, b⟩ := hd
    simp only [getD, get, sum, List.map_cons, List.sum_cons] at ih ⊢
    by_cases h : a = k
    · simp [h]
    · simp only [if_neg h]
      omega

end KVStore

/-! ### Byte-encoding layer: lemmas and claim C6 -/

namespace Erc20

theorem beBytesAux_length (n v : Nat) : (beBytesAux n v).length = n := by
  induction n generalizing v with
  | zero => simp [beBytesAux]
  | succ n ih => simp [beBytesAux, ih]

theorem from_be_beBytesAux (n v : Nat) :
    from_be_bytes (beBytesAux n v) = v % 256 ^ n := by
  induction n generalizing v with
  | zero =>
    simp only [beBytesAux, from_be_bytes, List.foldl_nil, Nat.pow_zero,
      Nat.mod_one]
  | succ n ih =>
    have hfold : from_be_bytes (beBytesAux n (v / 256) ++ [v % 256])
        = from_be_bytes (beBytesAux n (v / 256)) * 256 + v % 256 := by
      simp [from_be_bytes, List.foldl_append]
    have h1 : v / 256 % 256 ^ n = v % (256 * 256 ^ n) / 256 :=
      (Nat.mod_mul_right_div_self v 256 (256 ^ n)).symm
    have h2 : v % (256 * 256 ^ n) % 256 = v % 256 :=
      Nat.mod_mod_of_dvd v ⟨256 ^ n, rfl⟩
    have h3 : 256 * (v % (256 * 256 ^ n) / 256) + v % (256 * 256 ^ n) % 256
        = v % (256 * 256 ^ n) := Nat.div_add_mod _ 256
    have hpow : (256 : Nat) ^ (n + 1) = 256 * 256 ^ n := by ring
    rw [beBytesAux, hfold, ih, h1, hpow]
    omega

/-- Writing a 128-bit value and decoding it back is the identity. -/
theorem bytes_to_u128_roundtrip (v : Nat) (hv : v < U128_LIMIT) :
    bytes_to_u128 (u128_to_be_bytes v) = .ok v := by
  have hlen : (u128_to_be_bytes v).length = 16 := beBytesAux_length 16 v
  have hrt : from_be_bytes (u128_to_be_bytes v) = v := by
    have := from_be_beBytesAux 16 v
    rw [u128_to_be_bytes, this, Nat.mod_eq_of_lt]
    exact hv
  rw [bytes_to_u128, if_neg (by omega)]
  rw [List.take_of_length_le (by omega), hrt]

/-- Stored-value round-trip through the store layer: after writing the
16-byte encoding, `read_u128` returns the identical value. -/
theorem read_u128_roundtrip (store : KVStore String (List Nat)) (key : String)
    (v : Nat) (hv : v < U128_LIMIT) :
    read_u128 (KVStore.set store key (u128_to_be_bytes v)) key = .ok v := by
  rw [read_u128, KVStore.get_set_self]
  exact bytes_to_u128_roundtrip v hv

end Erc20

/-- C6: the round-trip half of the claim holds (16-byte stored values decode
to the identical value — shown here at value 123456789), but the
wrong-length half fails on the code: a 1-byte stored value `[7]` aborts with
the slice panic instead of returning the CorruptData error, and a 17-byte
stored value silently decodes its 16-byte prefix (`ok 5`) instead of
erroring.  The source's own comment says "Errors if data found that is not
16 bytes", but its `data[0..16]` slice panics below 16 bytes and truncates
above, making the CorruptData branch unreachable. -/
theorem bytes_to_u128_wrong_length_divergence :
    Erc20.read_u128 (KVStore.set [] "k" (Erc20.u128_to_be_bytes 123456789)) "k"
        = .ok 123456789
    ∧ Erc20.bytes_to_u128 [7] = .error (.fatal "byte slice index out of range")
    ∧ Erc20.bytes_to_u128 (Erc20.u128_to_be_bytes 5 ++ [99]) = .ok 5 := by
  refine ⟨Erc20.read_u128_roundtrip [] "k" 123456789 (by norm_num [Erc20.U128_LIMIT]), ?_, ?_⟩
  · rfl
  · rfl

/-! ### Claim C3: mint by a non-minter -/

/-- C3: a mint whose caller is not the recorded minter always fails (the
source panics at the authorization check; a `u128` overflow of the balance
increment can abort even earlier — either way no success is possible), the
raw execution never reaches the total-supply write, and the committed
post-transaction state is exactly the pre-state, so every balance entry and
the total supply are left as they were. -/
theorem mint_unauthorized_rejected (st : Erc20.State)
    (sender recipient : Erc20.Addr) (amount : Nat)
    (h : sender ≠ st.minter) :
    (Erc20.try_mint st sender recipient amount).error.isSome
    ∧ (Erc20.try_mint st sender recipient amount).state.totalSupply
        = st.totalSupply
    ∧ commitTx st (Erc20.try_mint st sender recipient amount) = st := by
  unfold Erc20.try_mint
  by_cases hov : Erc20.U128_LIMIT ≤ KVStore.getD st.balances recipient + amount
  · simp [hov, commitTx]
  · simp [hov, h, commitTx]

theorem mint_unauthorized_rejected_witness :
    ("eve" : Erc20.Addr) ≠ (Erc20.State.mk [("a", 4)] [] 4 "minter").minter
    ∧ (Erc20.try_mint ⟨[("a", 4)], [], 4, "minter"⟩ "eve" "a" 10).error.isSome
    ∧ (Erc20.try_mint ⟨[("a", 4)], [], 4, "minter"⟩ "eve" "a" 10).state.totalSupply
        = (Erc20.State.mk [("a", 4)] [] 4 "minter").totalSupply
    ∧ commitTx (Erc20.State.mk [("a", 4)] [] 4 "minter")
        (Erc20.try_mint ⟨[("a", 4)], [], 4, "minter"⟩ "eve" "a" 10)
        = ⟨[("a", 4)], [], 4, "minter"⟩ := by
  refine ⟨by decide, ?_⟩
  exact mint_unauthorized_rejected ⟨[("a", 4)], [], 4, "minter"⟩ "eve" "a" 10
    (by decide)

/-! ### Claim C1: terminal status stored by a passing `end_poll` -/

/-- C1: counterexample to "the stored terminal status is Passed".  The spec's
own passing scenario (quorum 30, a single "yes" vote of weight 1000 with 1000
staked): `end_poll` succeeds and logs `passed = true` with an empty rejection
reason, yet the poll record stored after the call has status `Rejected` — the
`Passed` assignment of contract.rs line 317 is unconditionally overwritten by
line 325 (`a_poll.status = poll_status`, where `poll_status` was bound to
`Rejected` at line 298) before the poll is saved. -/
theorem end_poll_passed_stored_rejected :
    let a_poll : Voting.Poll :=
      ⟨"creator", .InProgress, 30, 0, 0, ["voter"], [⟨"yes", 1000⟩],
        none, none, "test"⟩
    let st : Voting.GovState := ⟨"tok", "creator", 1, 1000, [(1, a_poll)], [], [], []⟩
    let r := Voting.end_poll st "creator" 1000 1000 1
    r.error = none ∧ r.passed = true ∧ r.rejected_reason = ""
      ∧ (KVStore.get r.state.polls 1).map Voting.Poll.status
          = some Voting.PollStatus.Rejected := by
  decide

/-! ### Claim C2: locked amount after a poll has ended -/

/-- C2: a full pipeline run — instantiate, create poll 1 (quorum 30), stake 11
as "voter", cast a vote of weight 10 on poll 1, and end the poll.  After the
poll has ended (its stored status is terminal), `locked_amount` of the voter
still returns 10, not 0, and a withdrawal of the staked 11 tokens is still
rejected: `end_poll` zeroes the `locked_tokens` bucket, but `locked_amount`
reads the `poll_voter_info` bucket, which no operation ever clears. -/
theorem locked_amount_counts_ended_poll :
    let g0 : Voting.GovState := Voting.gov_init "voting_token" "creator"
    let envC : Voting.GovEnv := ⟨"creator", 0, [], 0⟩
    let g1 := commitTx g0 (Voting.gov_handle g0 envC (.createPoll 30 "test" none none))
    let envV : Voting.GovEnv := ⟨"voter", 0, [⟨"voting_token", 11⟩], 0⟩
    let g2 := commitTx g1 (Voting.gov_handle g1 envV .stakeVotingTokens)
    let g3 := commitTx g2 (Voting.gov_handle g2 envV (.castVote 1 "yes" 10))
    let envE : Voting.GovEnv := ⟨"creator", 0, [], 11⟩
    let r := Voting.gov_handle g3 envE (.endPoll 1)
    let g4 := commitTx g3 r
    r.error = none
      ∧ (KVStore.get g4.polls 1).map Voting.Poll.status
          = some Voting.PollStatus.Rejected
      ∧ Voting.locked_amount g4 "voter" = .ok 10
      ∧ (Voting.withdraw_voting_tokens g4 envV (some 11)).error
          = some (.generic "User is trying to withdraw too many tokens.") := by
  decide

/-! ### Claim C7: quorum percentage range accepted by `create_poll` -/

/-- C7 counterexample: a poll with `quorum_percentage = 0` and a valid
description is rejected, refuting "createPoll accepts every quorum_percentage
in [0,100] ... in particular a poll with quorum_percentage = 0 can be
created". -/
theorem create_poll_rejects_zero_quorum :
    (Voting.create_poll (Voting.gov_init "tok" "creator") "creator" 0 "test"
        none none).error
      = some (.generic "quorum_percentage must be 1 to 100") := by
  decide

/-- C7 amended: `create_poll` accepts exactly the quorum percentages in
[1,100] (with a valid description and a non-overflowing poll counter) and
rejects 0 as well as every value above 100 with the range validation error. -/
theorem create_poll_quorum_range (st : Voting.GovState) (sender : Voting.Addr)
    (qp : Nat) (desc : String) (sh eh : Option Nat) :
    (1 ≤ qp → qp ≤ 100 → Voting.validate_description desc = .ok ()
      → st.poll_count + 1 < Voting.U64_LIMIT
      → (Voting.create_poll st sender qp desc sh eh).error = none)
    ∧ (qp = 0 ∨ 100 < qp
      → (Voting.create_poll st sender qp desc sh eh).error
          = some (.generic "quorum_percentage must be 1 to 100")) := by
  constructor
  · intro h1 h100 hdesc hcount
    unfold Voting.create_poll Voting.validate_quorum_percentage
    have : ¬ (qp = 0 || 100 < qp) = true := by
      simp only [Bool.or_eq_true, decide_eq_true_eq]
      omega
    simp only [this, if_neg, Bool.false_eq_true, not_false_eq_true, if_neg this]
    rw [hdesc]
    simp [hcount, not_le.mpr hcount]
  · intro h
    unfold Voting.create_poll Voting.validate_quorum_percentage
    have : (qp = 0 || 100 < qp) = true := by
      simp only [Bool.or_eq_true, decide_eq_true_eq]
      omega
    simp [this]

theorem create_poll_quorum_range_witness :
    (Voting.create_poll (Voting.gov_init "tok" "c") "c" 1 "test" none none).error
        = none
    ∧ (Voting.create_poll (Voting.gov_init "tok" "c") "c" 101 "test" none
        none).error
        = some (.generic "quorum_percentage must be 1 to 100") :=
  ⟨(create_poll_quorum_range (Voting.gov_init "tok" "c") "c" 1 "test" none
      none).1 (by decide) (by decide) (by decide) (by decide),
   (create_poll_quorum_range (Voting.gov_init "tok" "c") "c" 101 "test" none
      none).2 (Or.inr (by decide))⟩

/-! ### Claim C8: rejection reason for a zero tally -/

/-- C8 counterexample: an in-progress poll with `quorum_percentage = 0` and no
votes cast is successfully ended with rejection reason "Quorum not reached",
not "No votes" — the string "No votes" does not occur in the code, and the
zero-tally branch of `end_poll` (line 323) sets "Quorum not reached"
unconditionally. -/
theorem end_poll_zero_tally_counterexample :
    let a_poll : Voting.Poll :=
      ⟨"creator", .InProgress, 0, 0, 0, [], [], none, none, "test"⟩
    let st : Voting.GovState := ⟨"tok", "creator", 1, 0, [(1, a_poll)], [], [], []⟩
    let r := Voting.end_poll st "creator" 0 0 1
    r.error = none ∧ r.rejected_reason = "Quorum not reached"
      ∧ r.rejected_reason ≠ "No votes" := by
  decide

/-- C8 amended: for every in-progress poll on which no vote weight was cast,
a successful `end_poll` rejects the poll with reason "Quorum not reached"
regardless of the poll's quorum percentage (the code has no "No votes"
reason; a quorum percentage of zero is additionally not creatable, see the
C7 theorems). -/
theorem end_poll_zero_tally_reason (st : Voting.GovState)
    (sender : Voting.Addr) (height oracle poll_id : Nat) (a_poll : Voting.Poll)
    (hget : KVStore.get st.polls poll_id = some a_poll)
    (hcr : a_poll.creator = sender)
    (hst : a_poll.status = .InProgress)
    (hsh : Voting.height_not_reached a_poll.start_height height = false)
    (heh : Voting.height_not_reached a_poll.end_height height = false)
    (htal : Voting.yesWeight a_poll.voter_info
        + Voting.noWeight a_poll.voter_info = 0) :
    (Voting.end_poll st sender height oracle poll_id).error = none
    ∧ (Voting.end_poll st sender height oracle poll_id).rejected_reason
        = "Quorum not reached"
    ∧ (Voting.end_poll st sender height oracle poll_id).passed = false := by
  unfold Voting.end_poll
  rw [hget]
  simp only [hcr, hst, hsh, heh, htal]
  simp

theorem end_poll_zero_tally_reason_witness :
    (Voting.end_poll ⟨"tok", "creator", 1, 0,
        [(1, ⟨"creator", .InProgress, 40, 0, 0, [], [], none, none, "test"⟩)],
        [], [], []⟩ "creator" 0 0 1).error = none
    ∧ (Voting.end_poll ⟨"tok", "creator", 1, 0,
        [(1, ⟨"creator", .InProgress, 40, 0, 0, [], [], none, none, "test"⟩)],
        [], [], []⟩ "creator" 0 0 1).rejected_reason = "Quorum not reached"
    ∧ (Voting.end_poll ⟨"tok", "creator", 1, 0,
        [(1, ⟨"creator", .InProgress, 40, 0, 0, [], [], none, none, "test"⟩)],
        [], [], []⟩ "creator" 0 0 1).passed = false :=
  end_poll_zero_tally_reason _ "creator" 0 0 1
    ⟨"creator", .InProgress, 40, 0, 0, [], [], none, none, "test"⟩
    (by decide) (by decide) (by decide) (by decide) (by decide) (by decide)

/-! ### Claim C5: atomicity of `transferFrom` failures -/

/-- C5 counterexample: with allowance(owner, spender) = 5 and balance(owner)
= 3, `transferFrom` of 5 returns an error — but by the time the error is
returned the operation has already committed a write: the allowance entry has
been decremented to 0 in the raw storage.  This refutes "it either fully
succeeds or returns the error before committing any write". -/
theorem transfer_from_partial_write_counterexample :
    let st : Erc20.State := ⟨[("owner", 3)], [(("owner", "spender"), 5)], 3, "minter"⟩
    let r := Erc20.try_transfer_from st "spender" "owner" "rcpt" 5
    r.error.isSome ∧ r.state.allowances = [(("owner", "spender"), 0)]
      ∧ r.state.allowances ≠ st.allowances := by
  decide

/-- C5 amended: the insufficient-allowance check happens before any write
(that failure leaves the raw storage untouched), and the host transaction
wrapper discards the writes of every failed `transferFrom`, so no write is
observable after a failed transaction; but in the allowance-sufficient /
balance-insufficient case the operation itself has already written the
decremented allowance when it returns the error. -/
theorem transfer_from_atomicity (st : Erc20.State)
    (spender owner recipient : Erc20.Addr) (amount : Nat) :
    (KVStore.getD st.allowances (owner, spender) < amount
      → Erc20.try_transfer_from st spender owner recipient amount
          = ⟨st, some (.generic ("Insufficient allowance: allowance="
              ++ toString (KVStore.getD st.allowances (owner, spender))
              ++ ", required=" ++ toString amount))⟩)
    ∧ ((Erc20.try_transfer_from st spender owner recipient amount).error.isSome
      → commitTx st (Erc20.try_transfer_from st spender owner recipient amount)
          = st)
    ∧ (amount ≤ KVStore.getD st.allowances (owner, spender)
      → KVStore.getD st.balances owner < amount
      → (Erc20.try_transfer_from st spender owner recipient amount).error.isSome
        ∧ (Erc20.try_transfer_from st spender owner recipient
              amount).state.allowances
            = KVStore.set st.allowances (owner, spender)
                (KVStore.getD st.allowances (owner, spender) - amount)) := by
  refine ⟨?_, ?_, ?_⟩
  · intro h
    unfold Erc20.try_transfer_from
    simp [h]
  · intro h
    exact commitTx_of_error st _ h
  · intro hallow hbal
    unfold Erc20.try_transfer_from Erc20.perform_transfer
    simp only [not_lt.mpr hallow, if_neg, if_pos hbal]
    simp [not_lt.mpr hallow, hbal]

theorem transfer_from_atomicity_witness :
    (Erc20.try_transfer_from ⟨[("owner", 3)], [(("owner", "spender"), 5)], 3,
        "minter"⟩ "spender" "owner" "rcpt" 9
      = ⟨⟨[("owner", 3)], [(("owner", "spender"), 5)], 3, "minter"⟩,
          some (.generic "Insufficient allowance: allowance=5, required=9")⟩)
    ∧ ((Erc20.try_transfer_from ⟨[("owner", 3)], [(("owner", "spender"), 5)], 3,
        "minter"⟩ "spender" "owner" "rcpt" 5).error.isSome
        ∧ (Erc20.try_transfer_from ⟨[("owner", 3)], [(("owner", "spender"), 5)],
            3, "minter"⟩ "spender" "owner" "rcpt" 5).state.allowances
          = KVStore.set [(("owner", "spender"), 5)] ("owner", "spender") 0) := by
  constructor
  · have h := (transfer_from_atomicity
      ⟨[("owner", 3)], [(("owner", "spender"), 5)], 3, "minter"⟩
      "spender" "owner" "rcpt" 9).1 (by decide)
    exact h
  · have h := (transfer_from_atomicity
      ⟨[("owner", 3)], [(("owner", "spender"), 5)], 3, "minter"⟩
      "spender" "owner" "rcpt" 5).2.2 (by decide) (by decide)
    exact h

/-! ### Claim C4: conservation of total supply -/

theorem perform_transfer_sum (bal : KVStore Erc20.Addr Nat)
    (frm dst : Erc20.Addr) (amount : Nat)
    (h : (Erc20.perform_transfer bal frm dst amount).error = none) :
    KVStore.sum (Erc20.perform_transfer bal frm dst amount).state
      = KVStore.sum bal := by
  unfold Erc20.perform_transfer at h ⊢
  by_cases h1 : KVStore.getD bal frm < amount
  · simp [h1] at h
  · by_cases h2 : Erc20.U128_LIMIT
        ≤ KVStore.getD (KVStore.set bal frm (KVStore.getD bal frm - amount)) dst
          + amount
    · simp [h1, h2] at h
    · have e1 := KVStore.sum_set bal frm (KVStore.getD bal frm - amount)
      have e2 := KVStore.sum_set
        (KVStore.set bal frm (KVStore.getD bal frm - amount)) dst
        (KVStore.getD (KVStore.set bal frm (KVStore.getD bal frm - amount)) dst
          + amount)
      have l1 := KVStore.getD_le_sum bal frm
      simp [h1, h2]
      omega

/-- C4: starting from any ledger state whose total supply equals the sum of
all balance entries, every successful handler call — transfer, transferFrom,
mint, burn (and approve, which touches no balance) — re-establishes that the
total supply equals the sum of all balances. -/
theorem erc20_conservation (st : Erc20.State) (sender : Erc20.Addr)
    (msg : Erc20.Msg)
    (hinv : KVStore.sum st.balances = st.totalSupply)
    (hok : (Erc20.handle st sender msg).error = none) :
    KVStore.sum (Erc20.handle st sender msg).state.balances
      = (Erc20.handle st sender msg).state.totalSupply := by
  cases msg with
  | approve spender amount =>
    simpa [Erc20.handle, Erc20.try_approve] using hinv
  | transfer recipient amount =>
    simp only [Erc20.handle, Erc20.try_transfer] at hok ⊢
    cases hpt : Erc20.perform_transfer st.balances sender recipient amount with
    | mk bal err =>
      cases err with
      | none =>
        have hs := perform_transfer_sum st.balances sender recipient amount
          (by rw [hpt])
        rw [hpt] at hs
        simp [hpt, hs, hinv]
      | some e =>
        rw [hpt] at hok
        simp at hok
  | transferFrom owner recipient amount =>
    simp only [Erc20.handle, Erc20.try_transfer_from] at hok ⊢
    by_cases ha : KVStore.getD st.allowances (owner, sender) < amount
    · simp [ha] at hok
    · simp only [ha, if_neg, if_false, not_false_eq_true] at hok ⊢
      cases hpt : Erc20.perform_transfer st.balances owner recipient amount with
      | mk bal err =>
        cases err with
        | none =>
          have hs := perform_transfer_sum st.balances owner recipient amount
            (by rw [hpt])
          rw [hpt] at hs
          simp [ha, hpt, hs, hinv]
        | some e =>
          rw [hpt] at hok
          simp at hok
  | burn amount =>
    simp only [Erc20.handle, Erc20.try_burn] at hok ⊢
    by_cases h1 : KVStore.getD st.balances sender < amount
    · simp [h1] at hok
    · by_cases h2 : st.totalSupply < amount
      · simp [h1, h2] at hok
      · have e1 := KVStore.sum_set st.balances sender
          (KVStore.getD st.balances sender - amount)
        have l1 := KVStore.getD_le_sum st.balances sender
        simp [h1, h2]
        omega
  | mint recipient amount =>
    simp only [Erc20.handle, Erc20.try_mint] at hok ⊢
    by_cases h1 : Erc20.U128_LIMIT ≤ KVStore.getD st.balances recipient + amount
    · simp [h1] at hok
    · by_cases h2 : sender ≠ st.minter
      · simp [h1, h2] at hok
      · by_cases h3 : Erc20.U128_LIMIT ≤ st.totalSupply + amount
        · simp [h1, h2, h3] at hok
        · have e1 := KVStore.sum_set st.balances recipient
            (KVStore.getD st.balances recipient + amount)
          simp [h1, h2, h3]
          omega

theorem erc20_conservation_witness :
    KVStore.sum (Erc20.State.mk [("a", 5), ("b", 2)] [] 7 "m").balances
        = (Erc20.State.mk [("a", 5), ("b", 2)] [] 7 "m").totalSupply
    ∧ (Erc20.handle ⟨[("a", 5), ("b", 2)], [], 7, "m"⟩ "a"
        (.transfer "b" 3)).error = none
    ∧ KVStore.sum (Erc20.handle ⟨[("a", 5), ("b", 2)], [], 7, "m"⟩ "a"
          (.transfer "b" 3)).state.balances
        = (Erc20.handle ⟨[("a", 5), ("b", 2)], [], 7, "m"⟩ "a"
            (.transfer "b" 3)).state.totalSupply :=
  ⟨by decide, by decide,
    erc20_conservation ⟨[("a", 5), ("b", 2)], [], 7, "m"⟩ "a" (.transfer "b" 3)
      (by decide) (by decide)⟩

/-! ### Claim C10: `init` with duplicate initial balances -/

theorem initStep_error (s : KVStore Erc20.Addr Nat × Nat) (e : Err)
    (rows : List (Erc20.Addr × Nat)) :
    rows.foldl Erc20.initStep ⟨s, some e⟩ = ⟨s, some e⟩ := by
  induction rows with
  | nil => rfl
  | cons r rest ih => simpa [Erc20.initStep] using ih

theorem init_fold_ok (rows : List (Erc20.Addr × Nat))
    (bal : KVStore Erc20.Addr Nat) (supply : Nat)
    (h : (rows.foldl Erc20.initStep ⟨(bal, supply), none⟩).error = none) :
    rows.foldl Erc20.initStep ⟨(bal, supply), none⟩
      = ⟨(rows.foldl (fun b r => KVStore.set b r.1 r.2) bal,
          supply + (rows.map Prod.snd).sum), none⟩ := by
  induction rows generalizing bal supply with
  | nil => simp
  | cons r rest ih =>
    by_cases h1 : Erc20.U128_LIMIT ≤ r.2
    · rw [List.foldl_cons] at h
      simp only [Erc20.initStep, if_pos h1] at h
      rw [initStep_error] at h
      simp at h
    · by_cases h2 : Erc20.U128_LIMIT ≤ supply + r.2
      · rw [List.foldl_cons] at h
        simp only [Erc20.initStep, if_neg h1, if_pos h2] at h
        rw [initStep_error] at h
        simp at h
      · rw [List.foldl_cons] at h ⊢
        simp only [Erc20.initStep, if_neg h1, if_neg h2] at h ⊢
        rw [ih _ _ h]
        simp [Nat.add_assoc]

theorem lastVal_cons (c : Erc20.Addr) (x : Nat)
    (rest : List (Erc20.Addr × Nat)) (a : Erc20.Addr) :
    Erc20.lastVal ((c, x) :: rest) a
      = if a ∈ rest.map Prod.fst then Erc20.lastVal rest a
        else if c = a then x else 0 := rfl

theorem shadowedSum_cons (c : Erc20.Addr) (x : Nat)
    (rest : List (Erc20.Addr × Nat)) :
    Erc20.shadowedSum ((c, x) :: rest)
      = (if c ∈ rest.map Prod.fst then x else 0) + Erc20.shadowedSum rest := rfl

theorem getD_credit_fold (rows : List (Erc20.Addr × Nat))
    (bal : KVStore Erc20.Addr Nat) (a : Erc20.Addr) :
    KVStore.getD (rows.foldl (fun b r => KVStore.set b r.1 r.2) bal) a
      = if a ∈ rows.map Prod.fst then Erc20.lastVal rows a
        else KVStore.getD bal a := by
  induction rows generalizing bal with
  | nil => simp [Erc20.lastVal]
  | cons r rest ih =>
    obtain ⟨b, w⟩ := r
    rw [List.foldl_cons, ih, lastVal_cons]
    by_cases hr : a ∈ rest.map Prod.fst
    · simp [hr]
    · by_cases hba : b = a
      · subst hba
        rw [if_neg hr, KVStore.getD_set_self]
        simp [hr]
      · have hab : a ≠ b := fun hx => hba hx.symm
        rw [if_neg hr, KVStore.getD_set_ne _ _ _ _ hab]
        simp [hr, hba, hab]

theorem lastVal_snoc (rs : List (Erc20.Addr × Nat)) (b : Erc20.Addr) (w : Nat)
    (a : Erc20.Addr) :
    Erc20.lastVal (rs ++ [(b, w)]) a
      = if b = a then w else Erc20.lastVal rs a := by
  induction rs with
  | nil => simp [Erc20.lastVal]
  | cons p rs' ih =>
    obtain ⟨c, x⟩ := p
    rw [List.cons_append, lastVal_cons, ih, lastVal_cons]
    by_cases hba : b = a
    · by_cases hmem : a ∈ rs'.map Prod.fst
      · simp [hba, hmem]
      · simp [hba, hmem]
    · by_cases hmem : a ∈ rs'.map Prod.fst
      · simp [hba, hmem]
      · have hab : a ≠ b := fun hx => hba hx.symm
        simp [hba, hmem, hab]

theorem shadowedSum_snoc (rs : List (Erc20.Addr × Nat)) (b : Erc20.Addr)
    (w : Nat) :
    Erc20.shadowedSum (rs ++ [(b, w)])
      = Erc20.shadowedSum rs
        + (if b ∈ rs.map Prod.fst then Erc20.lastVal rs b else 0) := by
  induction rs with
  | nil => simp [Erc20.shadowedSum, Erc20.lastVal]
  | cons p rs' ih =>
    obtain ⟨c, x⟩ := p
    rw [List.cons_append, shadowedSum_cons, shadowedSum_cons, ih, lastVal_cons]
    by_cases hB : b ∈ rs'.map Prod.fst
    · by_cases hC : c ∈ rs'.map Prod.fst
      · simp [hB, hC]
        ring
      · by_cases hcb : c = b
        · subst hcb
          exact absurd hB hC
        · simp [hB, hC, hcb]
    · by_cases hcb : c = b
      · subst hcb
        simp [hB]
        ring
      · by_cases hC : c ∈ rs'.map Prod.fst
        · simp [hB, hC, hcb]
        · simp [hB, hC, hcb]

theorem credit_fold_sum (rows : List (Erc20.Addr × Nat)) :
    (rows.map Prod.snd).sum
      = KVStore.sum (rows.foldl (fun b r => KVStore.set b r.1 r.2)
          ([] : KVStore Erc20.Addr Nat))
        + Erc20.shadowedSum rows := by
  induction rows using List.reverseRecOn with
  | nil => simp [Erc20.shadowedSum, KVStore.sum]
  | append_singleton rs r ih =>
    obtain ⟨b, w⟩ := r
    have h1 := KVStore.sum_set
      (rs.foldl (fun s q => KVStore.set s q.1 q.2) ([] : KVStore Erc20.Addr Nat))
      b w
    have h2 := getD_credit_fold rs [] b
    have h3 : KVStore.getD ([] : KVStore Erc20.Addr Nat) b = 0 := rfl
    rw [h3] at h2
    rw [List.foldl_append, List.foldl_cons, List.foldl_nil, List.map_append,
      List.sum_append, shadowedSum_snoc]
    simp only [List.map_cons, List.map_nil, List.sum_cons, List.sum_nil]
    omega

theorem lastVal_last_occ (l1 : List (Erc20.Addr × Nat)) (a : Erc20.Addr)
    (v : Nat) (l2 : List (Erc20.Addr × Nat)) :
    a ∉ l2.map Prod.fst → Erc20.lastVal (l1 ++ (a, v) :: l2) a = v := by
  induction l2 using List.reverseRecOn with
  | nil =>
    intro _
    rw [show (a, v) :: ([] : List (Erc20.Addr × Nat)) = [(a, v)] from rfl,
      lastVal_snoc]
    simp
  | append_singleton l2' r ih =>
    intro h
    obtain ⟨c, x⟩ := r
    have hne : c ≠ a := by
      intro hx
      apply h
      simp [hx]
    have h2 : a ∉ l2'.map Prod.fst := by
      intro hx
      apply h
      simp [hx]
    have hassoc : l1 ++ (a, v) :: (l2' ++ [(c, x)])
        = (l1 ++ (a, v) :: l2') ++ [(c, x)] := by
      simp
    rw [hassoc, lastVal_snoc, if_neg hne, ih h2]

theorem shadowedSum_app_pos (l1 l2 : List (Erc20.Addr × Nat)) (a : Erc20.Addr)
    (v : Nat) (hv : 0 < v) (h : a ∈ l2.map Prod.fst) :
    0 < Erc20.shadowedSum (l1 ++ (a, v) :: l2) := by
  induction l1 with
  | nil =>
    rw [List.nil_append, shadowedSum_cons, if_pos h]
    omega
  | cons p l1' ih =>
    obtain ⟨c, x⟩ := p
    rw [List.cons_append, shadowedSum_cons]
    omega

/-- C10: for every successful ledger `init`, the stored total supply is the
sum of ALL listed amounts; the stored balance of an address is the amount of
its LAST listed occurrence (earlier credits are overwritten); and whenever a
duplicated address has an earlier occurrence with a positive amount, the
stored supply strictly exceeds the sum of all stored balances. -/
theorem init_duplicate_balances (sender : Erc20.Addr) (name symbol : String)
    (decimals : Nat) (rows : List (Erc20.Addr × Nat))
    (hok : (Erc20.init sender name symbol decimals rows).error = none) :
    (Erc20.init sender name symbol decimals rows).state.totalSupply
        = (rows.map Prod.snd).sum
    ∧ (∀ l1 a v l2, rows = l1 ++ (a, v) :: l2 → a ∉ l2.map Prod.fst →
        KVStore.getD
          (Erc20.init sender name symbol decimals rows).state.balances a = v)
    ∧ ((∃ l1 a v l2, rows = l1 ++ (a, v) :: l2 ∧ 0 < v ∧ a ∈ l2.map Prod.fst) →
        KVStore.sum
            (Erc20.init sender name symbol decimals rows).state.balances
          < (Erc20.init sender name symbol decimals rows).state.totalSupply) := by
  cases hfold : rows.foldl Erc20.initStep
      ⟨(([] : KVStore Erc20.Addr Nat), 0), none⟩ with
  | mk s err =>
    obtain ⟨bal, supply⟩ := s
    cases err with
    | some e =>
      unfold Erc20.init at hok
      rw [hfold] at hok
      simp at hok
    | none =>
      have hchar := init_fold_ok rows [] 0 (by rw [hfold])
      rw [hfold] at hchar
      have hbal : bal = rows.foldl (fun b r => KVStore.set b r.1 r.2)
          ([] : KVStore Erc20.Addr Nat) := by
        have := congrArg (fun r => r.state.1) hchar
        simpa using this
      have hsup : supply = (rows.map Prod.snd).sum := by
        have := congrArg (fun r => r.state.2) hchar
        simpa using this
      by_cases h1 : Erc20.is_valid_name name
      · by_cases h2 : Erc20.is_valid_symbol symbol
        · by_cases h3 : 18 < decimals
          · exfalso
            unfold Erc20.init at hok
            rw [hfold] at hok
            simp [h1, h2, h3] at hok
          · have hres : Erc20.init sender name symbol decimals rows
                = ⟨⟨bal, [], supply, sender⟩, none⟩ := by
              unfold Erc20.init
              rw [hfold]
              simp [h1, h2, h3]
            rw [hres]
            refine ⟨hsup, ?_, ?_⟩
            · intro l1 a v l2 hdec hlast
              have hmem : a ∈ rows.map Prod.fst := by
                rw [hdec]
                simp
              rw [hbal]
              rw [getD_credit_fold rows [] a, if_pos hmem, hdec,
                lastVal_last_occ l1 a v l2 hlast]
            · rintro ⟨l1, a, v, l2, hdec, hv, hmem⟩
              have heq := credit_fold_sum rows
              have hpos : 0 < Erc20.shadowedSum rows := by
                rw [hdec]
                exact shadowedSum_app_pos l1 l2 a v hv hmem
              show KVStore.sum bal < supply
              rw [hbal, hsup]
              omega
        · exfalso
          unfold Erc20.init at hok
          rw [hfold] at hok
          simp [h1, h2] at hok
      · exfalso
        unfold Erc20.init at hok
        rw [hfold] at hok
        simp [h1] at hok

theorem init_duplicate_balances_witness :
    (Erc20.init "m" "Token" "TOK" 6 [("a", 5), ("b", 2), ("a", 7)]).error = none
    ∧ (Erc20.init "m" "Token" "TOK" 6
        [("a", 5), ("b", 2), ("a", 7)]).state.totalSupply
      = ([("a", 5), ("b", 2), ("a", 7)].map
          (Prod.snd (α := Erc20.Addr) (β := Nat))).sum
    ∧ KVStore.getD (Erc20.init "m" "Token" "TOK" 6
        [("a", 5), ("b", 2), ("a", 7)]).state.balances "a" = 7
    ∧ KVStore.sum (Erc20.init "m" "Token" "TOK" 6
          [("a", 5), ("b", 2), ("a", 7)]).state.balances
        < (Erc20.init "m" "Token" "TOK" 6
            [("a", 5), ("b", 2), ("a", 7)]).state.totalSupply := by
  have h := init_duplicate_balances "m" "Token" "TOK" 6
    [("a", 5), ("b", 2), ("a", 7)] (by decide)
  refine ⟨by decide, h.1, ?_, ?_⟩
  · exact h.2.1 [("a", 5), ("b", 2)] "a" 7 [] rfl (by decide)
  · exact h.2.2 ⟨[], "a", 5, [("b", 2), ("a", 7)], rfl, by decide, by decide⟩

/-! ### Claim C9: no double voting (voter lists of reachable states) -/

theorem stake_polls_eq (st : Voting.GovState) (env : Voting.GovEnv) :
    (Voting.stake_voting_tokens st env).state.polls = st.polls := by
  unfold Voting.stake_voting_tokens
  cases hassert : Voting.assert_sent_sufficient_coin env.sent_funds
      (some ⟨Voting.VOTING_TOKEN, Voting.MIN_STAKE_AMOUNT⟩) with
  | error e => rfl
  | ok u =>
    cases hfind : env.sent_funds.find?
        (fun c => c.denom = Voting.VOTING_TOKEN) with
    | none => rfl
    | some c =>
      by_cases h1 : Voting.U128_LIMIT
          ≤ ((KVStore.get st.bank env.sender).getD ⟨0, []⟩).token_balance
            + c.amount
      · simp [h1]
      · by_cases h2 : Voting.U128_LIMIT ≤ st.staked_tokens + c.amount
        · simp [h1, h2]
        · simp [h1, h2]

theorem withdraw_polls_eq (st : Voting.GovState) (env : Voting.GovEnv)
    (amount : Option Nat) :
    (Voting.withdraw_voting_tokens st env amount).state.polls = st.polls := by
  unfold Voting.withdraw_voting_tokens
  cases hbank : KVStore.get st.bank env.sender with
  | none => rfl
  | some tm =>
    cases hlock : Voting.locked_amount st env.sender with
    | error e => rfl
    | ok largest =>
      by_cases h1 : tm.token_balance < largest + amount.getD tm.token_balance
      · simp [h1]
      · by_cases h2 : st.staked_tokens < amount.getD tm.token_balance
        · simp [h1, h2]
        · simp [h1, h2]

theorem commitTx_polls_eq (st : Voting.GovState)
    (r : RawResult Voting.GovState) (h : r.state.polls = st.polls) :
    (commitTx st r).polls = st.polls := by
  unfold commitTx
  split
  · rfl
  · exact h

theorem create_poll_polls (st : Voting.GovState) (sender : Voting.Addr)
    (qp : Nat) (desc : String) (sh eh : Option Nat) :
    (Voting.create_poll st sender qp desc sh eh).state.polls = st.polls
    ∨ (Voting.create_poll st sender qp desc sh eh).state.polls
        = KVStore.set st.polls (st.poll_count + 1)
            ⟨sender, .InProgress, qp, 0, 0, [], [], eh, sh, desc⟩ := by
  unfold Voting.create_poll
  cases hq : Voting.validate_quorum_percentage qp with
  | error e => exact Or.inl rfl
  | ok u =>
    cases hd : Voting.validate_description desc with
    | error e => exact Or.inl rfl
    | ok u2 =>
      by_cases h1 : Voting.U64_LIMIT ≤ st.poll_count + 1
      · left
        simp [h1]
      · right
        simp [h1]

theorem cast_vote_polls (st : Voting.GovState) (sender : Voting.Addr)
    (pid : Nat) (vote : String) (weight : Nat) :
    (Voting.cast_vote st sender pid vote weight).state.polls = st.polls
    ∨ ∃ a_poll, KVStore.get st.polls pid = some a_poll
        ∧ Voting.has_voted sender a_poll = false
        ∧ (Voting.cast_vote st sender pid vote weight).state.polls
            = KVStore.set st.polls pid
                ⟨a_poll.creator, a_poll.status, a_poll.quorum_percentage,
                  a_poll.yes_votes, a_poll.no_votes,
                  a_poll.voters ++ [sender],
                  a_poll.voter_info ++ [⟨vote, weight⟩],
                  a_poll.end_height, a_poll.start_height,
                  a_poll.description⟩ := by
  cases hget : KVStore.get st.polls pid with
  | none =>
    left
    unfold Voting.cast_vote
    rw [hget]
  | some a_poll =>
    unfold Voting.cast_vote
    rw [hget]
    by_cases h1 : a_poll.status ≠ .InProgress
    · left
      simp [h1]
    · by_cases h2 : Voting.has_voted sender a_poll
      · left
        simp [h1, h2]
      · by_cases h3 : ((KVStore.get st.bank sender).getD ⟨0, []⟩).token_balance
            < weight
        · left
          simp [h1, h2, h3]
        · right
          refine ⟨a_poll, rfl, by simpa using h2, ?_⟩
          simp [h1, h2, h3]

theorem end_poll_polls (st : Voting.GovState) (sender : Voting.Addr)
    (height oracle pid : Nat) :
    (Voting.end_poll st sender height oracle pid).state.polls = st.polls
    ∨ ∃ a_poll p', KVStore.get st.polls pid = some a_poll
        ∧ (Voting.end_poll st sender height oracle pid).state.polls
            = KVStore.set st.polls pid p'
        ∧ p'.voters = a_poll.voters := by
  cases hget : KVStore.get st.polls pid with
  | none =>
    left
    unfold Voting.end_poll
    rw [hget]
  | some a_poll =>
    unfold Voting.end_poll
    rw [hget]
    by_cases h1 : a_poll.creator ≠ sender
    · left
      simp [h1]
    · by_cases h2 : a_poll.status ≠ .InProgress
      · left
        simp [h1, h2]
      · by_cases h3 : Voting.height_not_reached a_poll.start_height height
        · left
          simp [h1, h2, h3]
        · by_cases h4 : Voting.height_not_reached a_poll.end_height height
          · left
            simp [h1, h2, h3, h4]
          · by_cases h6 : 0 < Voting.yesWeight a_poll.voter_info
                + Voting.noWeight a_poll.voter_info
            · by_cases h7 : oracle = 0
              · left
                simp [h1, h2, h3, h4, h6, h7]
              · by_cases h8 : (Voting.yesWeight a_poll.voter_info
                      + Voting.noWeight a_poll.voter_info) / oracle * 100 % 256
                    < a_poll.quorum_percentage
                · right
                  refine ⟨a_poll,
                    { a_poll with status := Voting.PollStatus.Rejected },
                    rfl, ?_, rfl⟩
                  simp [h1, h2, h3, h4, h6, h7, h8]
                · by_cases h9 : (Voting.yesWeight a_poll.voter_info
                        + Voting.noWeight a_poll.voter_info) / 2
                      < Voting.yesWeight a_poll.voter_info
                  · right
                    refine ⟨a_poll,
                      { a_poll with status := Voting.PollStatus.Rejected },
                      rfl, ?_, rfl⟩
                    simp [h1, h2, h3, h4, h6, h7, h8, h9]
                  · right
                    refine ⟨a_poll,
                      { a_poll with status := Voting.PollStatus.Rejected },
                      rfl, ?_, rfl⟩
                    simp [h1, h2, h3, h4, h6, h7, h8, h9]
            · right
              refine ⟨a_poll,
                { a_poll with status := Voting.PollStatus.Rejected },
                rfl, ?_, rfl⟩
              simp [h1, h2, h3, h4, h6]

theorem gov_step_preserves_nodup (st : Voting.GovState) (env : Voting.GovEnv)
    (msg : Voting.GovMsg)
    (h : ∀ pid p, KVStore.get st.polls pid = some p → p.voters.Nodup) :
    ∀ pid p, KVStore.get
        (commitTx st (Voting.gov_handle st env msg)).polls pid = some p →
      p.voters.Nodup := by
  cases msg with
  | stakeVotingTokens =>
    intro pid p hp
    have heq : (commitTx st (Voting.gov_handle st env .stakeVotingTokens)).polls
        = st.polls := commitTx_polls_eq st _ (stake_polls_eq st env)
    rw [heq] at hp
    exact h pid p hp
  | withdrawVotingTokens amount =>
    intro pid p hp
    have heq : (commitTx st (Voting.gov_handle st env
        (.withdrawVotingTokens amount))).polls = st.polls :=
      commitTx_polls_eq st _ (withdraw_polls_eq st env amount)
    rw [heq] at hp
    exact h pid p hp
  | createPoll qp desc sh eh =>
    intro pid p hp
    rcases create_poll_polls st env.sender qp desc sh eh with hc | hc
    · have heq : (commitTx st (Voting.gov_handle st env
          (.createPoll qp desc sh eh))).polls = st.polls :=
        commitTx_polls_eq st _ hc
      rw [heq] at hp
      exact h pid p hp
    · by_cases he : (Voting.create_poll st env.sender qp desc sh eh).error.isSome
      · have heq : commitTx st (Voting.gov_handle st env
            (.createPoll qp desc sh eh)) = st := commitTx_of_error st _ he
        rw [heq] at hp
        exact h pid p hp
      · have hok : (Voting.create_poll st env.sender qp desc sh eh).error
            = none := by
          simpa using he
        have heq : commitTx st (Voting.gov_handle st env
            (.createPoll qp desc sh eh))
            = (Voting.create_poll st env.sender qp desc sh eh).state :=
          commitTx_of_ok st _ hok
        rw [heq, hc] at hp
        by_cases hpid : pid = st.poll_count + 1
        · subst hpid
          rw [KVStore.get_set_self] at hp
          cases hp
          exact List.nodup_nil
        · rw [KVStore.get_set_ne _ _ _ _ hpid] at hp
          exact h pid p hp
  | castVote vpid vote weight =>
    intro pid p hp
    rcases cast_vote_polls st env.sender vpid vote weight with hc | hc
    · have heq : (commitTx st (Voting.gov_handle st env
          (.castVote vpid vote weight))).polls = st.polls :=
        commitTx_polls_eq st _ hc
      rw [heq] at hp
      exact h pid p hp
    · obtain ⟨a_poll, hget, hnv, hc⟩ := hc
      by_cases he : (Voting.cast_vote st env.sender vpid vote
          weight).error.isSome
      · have heq : commitTx st (Voting.gov_handle st env
            (.castVote vpid vote weight)) = st := commitTx_of_error st _ he
        rw [heq] at hp
        exact h pid p hp
      · have hok : (Voting.cast_vote st env.sender vpid vote weight).error
            = none := by
          simpa using he
        have heq : commitTx st (Voting.gov_handle st env
            (.castVote vpid vote weight))
            = (Voting.cast_vote st env.sender vpid vote weight).state :=
          commitTx_of_ok st _ hok
        rw [heq, hc] at hp
        by_cases hpid : pid = vpid
        · subst hpid
          rw [KVStore.get_set_self] at hp
          cases hp
          have hnd := h pid a_poll hget
          have hmem : env.sender ∉ a_poll.voters := by
            have hv := hnv
            unfold Voting.has_voted at hv
            simpa using hv
          simp [List.nodup_append, hnd, hmem]
        · rw [KVStore.get_set_ne _ _ _ _ hpid] at hp
          exact h pid p hp
  | endPoll epid =>
    intro pid p hp
    rcases end_poll_polls st env.sender env.height env.oracle_staked epid
      with hc | hc
    · have heq : (commitTx st (Voting.gov_handle st env
          (.endPoll epid))).polls = st.polls := commitTx_polls_eq st _ hc
      rw [heq] at hp
      exact h pid p hp
    · obtain ⟨a_poll, p', hget, hc, hvoters⟩ := hc
      by_cases he : (Voting.end_poll st env.sender env.height
          env.oracle_staked epid).error.isSome
      · have heq : commitTx st (Voting.gov_handle st env (.endPoll epid))
            = st := commitTx_of_error st _ he
        rw [heq] at hp
        exact h pid p hp
      · have hok : (Voting.end_poll st env.sender env.height
            env.oracle_staked epid).error = none := by
          simpa using he
        have heq : commitTx st (Voting.gov_handle st env (.endPoll epid))
            = (Voting.end_poll st env.sender env.height
                env.oracle_staked epid).state :=
          commitTx_of_ok st _ hok
        rw [heq, hc] at hp
        by_cases hpid : pid = epid
        · subst hpid
          rw [KVStore.get_set_self] at hp
          cases hp
          have hnd := h pid a_poll hget
          rw [hvoters]
          exact hnd
        · rw [KVStore.get_set_ne _ _ _ _ hpid] at hp
          exact h pid p hp

theorem gov_reachable_polls_nodup (st : Voting.GovState)
    (hreach : Voting.Reachable st) :
    ∀ pid p, KVStore.get st.polls pid = some p → p.voters.Nodup := by
  induction hreach with
  | init token sender =>
    intro pid p hp
    simp [Voting.gov_init, KVStore.get] at hp
  | step st env msg hr ih =>
    exact gov_step_preserves_nodup st env msg ih

/-- C9: in every reachable governance state, each voter address appears at
most once in every stored poll's voter list (create stores an empty list,
`cast_vote` is the only operation appending to it, and it refuses voters who
already appear); and `cast_vote` by a voter already present in an in-progress
poll's voter list always fails with "User has already voted." leaving the
raw storage untouched. -/
theorem no_double_voting :
    (∀ st, Voting.Reachable st →
      ∀ pid p, KVStore.get st.polls pid = some p → p.voters.Nodup)
    ∧ (∀ st (sender : Voting.Addr) (pid : Nat) (vote : String) (weight : Nat)
        (a_poll : Voting.Poll),
        KVStore.get st.polls pid = some a_poll →
        a_poll.status = Voting.PollStatus.InProgress →
        sender ∈ a_poll.voters →
        Voting.cast_vote st sender pid vote weight
          = ⟨st, some (.generic "User has already voted.")⟩) := by
  constructor
  · exact gov_reachable_polls_nodup
  · intro st sender pid vote weight a_poll hget hst hmem
    unfold Voting.cast_vote
    rw [hget]
    have h1 : ¬ a_poll.status ≠ Voting.PollStatus.InProgress := by
      simp [hst]
    have h2 : Voting.has_voted sender a_poll = true := by
      unfold Voting.has_voted
      simpa using hmem
    simp [h1, h2]

theorem no_double_voting_witness :
    (Voting.Poll.mk "creator" .InProgress 30 0 0 [] [] none none
        "test").voters.Nodup
    ∧ Voting.cast_vote
        ⟨"tok", "creator", 1, 0,
          [(1, ⟨"creator", .InProgress, 30, 0, 0, ["voter"], [⟨"yes", 1⟩],
            none, none, "test"⟩)], [], [], []⟩ "voter" 1 "yes" 1
      = ⟨⟨"tok", "creator", 1, 0,
          [(1, ⟨"creator", .InProgress, 30, 0, 0, ["voter"], [⟨"yes", 1⟩],
            none, none, "test"⟩)], [], [], []⟩,
          some (.generic "User has already voted.")⟩ := by
  constructor
  · exact no_double_voting.1
      (commitTx (Voting.gov_init "voting_token" "creator")
        (Voting.gov_handle (Voting.gov_init "voting_token" "creator")
          ⟨"creator", 0, [], 0⟩ (.createPoll 30 "test" none none)))
      (Voting.Reachable.step _ _ _
        (Voting.Reachable.init "voting_token" "creator"))
      1 _ (by decide)
  · exact no_double_voting.2 _ "voter" 1 "yes" 1
      ⟨"creator", .InProgress, 30, 0, 0, ["voter"], [⟨"yes", 1⟩], none, none,
        "test"⟩ (by decide) (by decide) (by decide)
